import Mathlib

/-!
Verification of the label-extraction and parts-list-comparison utilities of the
dxf-tools repository, together with a spec-level model of the drawing comparison
entry point.  Python strings are modelled as Lean `String`s (lists of characters);
the case/whitespace primitives are modelled on the ASCII range, which covers the
label data these tools process.
-/

set_option maxHeartbeats 1000000
set_option maxRecDepth 8000

namespace DxfTools

/-! ### Python string primitives -/

/-- Whitespace characters removed by Python `str.strip` (ASCII range). -/
def isPySpace (c : Char) : Bool :=
  c = ' ' || c = '\t' || c = '\n' || c = '\r' || c = '\x0B' || c = '\x0C'

/-- Drop trailing whitespace, as Python `str.rstrip`. -/
def trimRightList : List Char → List Char
  | [] => []
  | a :: rest =>
    match trimRightList rest with
    | [] => if isPySpace a then [] else [a]
    | r => a :: r

/-- Python `str.strip`: drop leading and trailing whitespace. -/
def trimList (l : List Char) : List Char :=
  trimRightList (l.dropWhile isPySpace)

/-- Python `str.strip` on strings. -/
def pytrim (s : String) : String :=
  ⟨trimList s.data⟩

/-- Python `str.upper` (ASCII case mapping). -/
def pyUpper (s : String) : String :=
  ⟨s.data.map Char.toUpper⟩

/-- Python `sep.join(pieces)`. -/
def pyJoin (sep : String) : List String → String
  | [] => ""
  | [a] => a
  | a :: b :: rest => a ++ sep ++ pyJoin sep (b :: rest)

/-- Split a character list at newline characters; the separators are dropped
and a list of `n` newlines yields `n + 1` pieces, as iterating
`io.StringIO` line by line does once the terminators are stripped. -/
def splitOnNewline : List Char → List (List Char)
  | [] => [[]]
  | '\n' :: rest => [] :: splitOnNewline rest
  | c :: rest =>
    match splitOnNewline rest with
    | [] => [[c]]
    | piece :: pieces => (c :: piece) :: pieces

/-- The lines of a Python string, split at newline characters. -/
def linesOf (content : String) : List String :=
  (splitOnNewline content.data).map (fun l => ⟨l⟩)

/-- Lexicographic comparison of character lists by code point, the order
Python uses to sort strings. -/
def lexLeB : List Char → List Char → Bool
  | [], _ => true
  | _ :: _, [] => false
  | a :: as, b :: bs => if a = b then lexLeB as bs else decide (a < b)

/-- Python's string order: ascending lexicographic by code point. -/
def pyStrLe (s t : String) : Prop :=
  lexLeB s.data t.data = true

/-- The reversed string order, for `sort(reverse=True)`. -/
def pyStrGe (s t : String) : Prop :=
  pyStrLe t s

instance : DecidableRel pyStrLe := fun s t =>
  inferInstanceAs (Decidable (lexLeB s.data t.data = true))

instance : DecidableRel pyStrGe := fun s t =>
  inferInstanceAs (Decidable (pyStrLe t s))

instance : IsTotal String pyStrLe := by
  constructor
  intro s t
  show lexLeB s.data t.data = true ∨ lexLeB t.data s.data = true
  generalize s.data = a
  generalize t.data = b
  induction a generalizing b with
  | nil => left; rfl
  | cons x xs ih =>
    cases b with
    | nil => right; rfl
    | cons y ys =>
      by_cases hxy : x = y
      · subst hxy
        rcases ih ys with h | h
        · left; simpa [lexLeB] using h
        · right; simpa [lexLeB] using h
      · rcases lt_or_gt_of_ne hxy with h | h
        · left; simp [lexLeB, hxy, h]
        · right; simp [lexLeB, Ne.symm hxy, h]

instance : IsTrans String pyStrLe := by
  constructor
  intro s t u h1 h2
  show lexLeB s.data u.data = true
  have hst : lexLeB s.data t.data = true := h1
  have htu : lexLeB t.data u.data = true := h2
  clear h1 h2
  generalize hga : s.data = a at hst
  generalize hgb : t.data = b at hst htu
  generalize hgc : u.data = c at htu ⊢
  clear hga hgb hgc
  induction a generalizing b c with
  | nil => rfl
  | cons x xs ih =>
    cases b with
    | nil => simp [lexLeB] at hst
    | cons y ys =>
      cases c with
      | nil => simp [lexLeB] at htu
      | cons z zs =>
        by_cases hxy : x = y <;> by_cases hyz : y = z
        · subst hxy; subst hyz
          simp only [lexLeB, if_pos rfl] at hst htu ⊢
          exact ih ys hst zs htu
        · subst hxy
          simp only [lexLeB, if_pos rfl] at hst
          simp only [lexLeB, if_neg hyz] at htu ⊢
          exact htu
        · subst hyz
          simp only [lexLeB, if_neg hxy] at hst
          simp only [lexLeB, if_neg hxy]
          exact hst
        · simp only [lexLeB, if_neg hxy] at hst
          simp only [lexLeB, if_neg hyz] at htu
          have hlt : x < z := lt_trans (of_decide_eq_true hst) (of_decide_eq_true htu)
          have hxz : x ≠ z := ne_of_lt hlt
          simp [lexLeB, hxz, hlt]

instance : IsTotal String pyStrGe :=
  ⟨fun s t => (total_of pyStrLe s t).symm⟩

instance : IsTrans String pyStrGe :=
  ⟨fun _ _ _ h1 h2 => trans_of pyStrLe h2 h1⟩

/-- Python `list.sort()` on strings: stable ascending lexicographic sort.
Stability is unobservable on strings, where equal keys are identical. -/
def pySortAsc (l : List String) : List String :=
  List.insertionSort pyStrLe l

/-- Python `list.sort(reverse=True)` on strings: descending lexicographic
sort. -/
def pySortDesc (l : List String) : List String :=
  List.insertionSort pyStrGe l

/-! ### `utils/compare_partslist.py` -/

/-- Model of `normalize_label` (compare_partslist.py line 4): strip whitespace, uppercase.
The Python `None` case cannot arise from `read_labels_from_content` and is not
modelled. -/
def normalize_label (label : String) : String :=
  pyUpper (pytrim label)

/-- Model of `read_labels_from_content` (compare_partslist.py line 10) on decoded text:
split into lines, drop lines blank after stripping, normalize the rest.
Iterating `io.StringIO(content)` yields the chunks of `content` delimited by
newline characters; the terminator is removed by the subsequent `strip`. -/
def read_labels_from_content (content : String) : List String :=
  (linesOf content).filterMap (fun line =>
    let label := pytrim line
    if label = "" then none else some (normalize_label label))

/-- Input passed to `compare_parts_list`: either text (a Python `str`, or bytes
that decode), or bytes whose UTF-8 decoding raises an exception carrying the
given message. -/
inductive Content where
  | str (s : String)
  | badBytes (msg : String)
deriving DecidableEq

/-- The `Counter` built from the labels of a content string (multiset of labels). -/
def counterOf (s : String) : Multiset String :=
  ↑(read_labels_from_content s)

/-- Model of `common_labels` (compare_partslist.py line 76): the set of labels occurring
in both inputs (`set(dxf_counter.keys()) & set(circuit_counter.keys())`). -/
def common_labels (a b : String) : Finset String :=
  (read_labels_from_content a).toFinset ∩ (read_labels_from_content b).toFinset

/-- Model of `missing_in_dxf` (line 80): `circuit_counter - dxf_counter`, Python `Counter`
subtraction keeping only positive multiplicities. -/
def missing_in_dxf (a b : String) : Multiset String :=
  counterOf b - counterOf a

/-- Model of `missing_in_circuit` (line 85): `dxf_counter - circuit_counter`. -/
def missing_in_circuit (a b : String) : Multiset String :=
  counterOf a - counterOf b

/-- Model of `missing_in_dxf_expanded` (line 81): the difference expanded with one
occurrence per surplus multiplicity (`list(missing_in_dxf.elements())`),
realized by removing one occurrence per circuit label from the dxf-side list;
its multiset of elements is exactly `missing_in_dxf`. -/
def missing_in_dxf_expanded (a b : String) : List String :=
  (read_labels_from_content b).diff (read_labels_from_content a)

/-- Model of `missing_in_circuit_expanded` (line 86). -/
def missing_in_circuit_expanded (a b : String) : List String :=
  (read_labels_from_content a).diff (read_labels_from_content b)

/-- Model of `sorted(missing_in_dxf_expanded)` (line 104): the expanded difference,
listed in ascending order for the report. -/
def missing_in_dxf_sorted (a b : String) : List String :=
  pySortAsc (missing_in_dxf_expanded a b)

/-- Model of `sorted(missing_in_circuit_expanded)` (line 113). -/
def missing_in_circuit_sorted (a b : String) : List String :=
  pySortAsc (missing_in_circuit_expanded a b)

/-- The `info` dictionary of `compare_parts_list` (lines 47-56). -/
structure CompareInfo where
  dxf_total : Nat
  dxf_unique : Nat
  circuit_total : Nat
  circuit_unique : Nat
  common_count : Nat
  missing_in_dxf : Nat
  missing_in_circuit : Nat
  error : Option String
deriving DecidableEq

/-- The initial `info` dictionary (all counters zero, no error). -/
def initInfo : CompareInfo :=
  ⟨0, 0, 0, 0, 0, 0, 0, none⟩

/-- One markdown section body: a bullet per label, or `- なし` when empty
(lines 102-107 / 111-116). -/
def bulletLines (l : List String) : List String :=
  if l.isEmpty then ["- なし"] else l.map (fun s => "- " ++ s)

/-- The markdown report assembled by `compare_parts_list` (lines 90-119). -/
def renderOutput (info : CompareInfo) (mdx mcl : List String) : String :=
  pyJoin "\n"
    (["# 図面ラベルと回路記号の差分比較結果\n",
      "## 処理概要",
      "- 図面ラベル数: " ++ toString info.dxf_total ++ " (ユニーク: " ++ toString info.dxf_unique ++ ")",
      "- 回路記号数: " ++ toString info.circuit_total ++ " (ユニーク: " ++ toString info.circuit_unique ++ ")",
      "- 共通するユニークラベル数: " ++ toString info.common_count,
      "- 図面に不足しているラベル総数: " ++ toString info.missing_in_dxf,
      "- 回路記号に不足しているラベル総数: " ++ toString info.missing_in_circuit,
      "",
      "## 図面に不足しているラベル（回路記号リストには存在する）"]
     ++ bulletLines mdx
     ++ ["", "## 回路記号リストに不足しているラベル（図面には存在する）"]
     ++ bulletLines mcl
     ++ [""])

/-- Model of `compare_parts_list` (compare_partslist.py line 36).  The `try` block can
only raise while reading the two contents (a UTF-8 decode error); every later
step is total.  On an exception the function returns the pair of the empty
string and the zeroed info dictionary with `error` set to the exception
message (lines 121-123); the first failing read wins, and the partial counters
are still zero because the reads precede every info update. -/
def compare_parts_list (dxfContent circuitContent : Content) : String × CompareInfo :=
  match dxfContent, circuitContent with
  | .badBytes e, _ => ("", { initInfo with error := some e })
  | .str _, .badBytes e => ("", { initInfo with error := some e })
  | .str a, .str b =>
    let dxf_labels := read_labels_from_content a
    let circuit_symbols := read_labels_from_content b
    let info : CompareInfo :=
      { dxf_total := dxf_labels.length
        dxf_unique := dxf_labels.toFinset.card
        circuit_total := circuit_symbols.length
        circuit_unique := circuit_symbols.toFinset.card
        common_count := (common_labels a b).card
        missing_in_dxf := (missing_in_dxf_sorted a b).length
        missing_in_circuit := (missing_in_circuit_sorted a b).length
        error := none }
    (renderOutput info (missing_in_dxf_sorted a b) (missing_in_circuit_sorted a b), info)

/-! ### `utils/extract_labels.py` -/

/-- Characters matched by the class `[A-Za-z0-9.]` of `FORMAT_CODE_PATTERN`
(extract_labels.py line 5). -/
def isClassChar (c : Char) : Bool :=
  c.isAlpha || c.isDigit || c = '.'

/-- Scanner realizing `FORMAT_CODE_PATTERN.sub('', text)`: the regular
expression `(\\[A-Za-z0-9.]+;)` matches at a position exactly when a backslash
is followed by a maximal nonempty run of class characters and then a
semicolon (the class excludes `;` and `\`, so greedy matching never
backtracks); `re.sub` deletes non-overlapping matches left to right and
advances one character on failure.  The first argument is fuel, always at
least the length of the scanned list. -/
def subFormatAux : Nat → List Char → List Char
  | _, [] => []
  | 0, l => l
  | fuel + 1, '\\' :: rest =>
    let run := rest.takeWhile isClassChar
    if run.isEmpty then '\\' :: subFormatAux fuel rest
    else
      match rest.drop run.length with
      | ';' :: tail => subFormatAux fuel tail
      | _ => '\\' :: subFormatAux fuel rest
  | fuel + 1, c :: rest => c :: subFormatAux fuel rest

/-- Model of `FORMAT_CODE_PATTERN.sub('', text)` on the character list of `text`. -/
def subFormatCodes (l : List Char) : List Char :=
  subFormatAux l.length l

/-- Model of `cleaned.replace('\\P', ' ')` (line 93): each occurrence of the two-character
sequence backslash-`P` becomes one space, scanning left to right. -/
def replacePara : List Char → List Char
  | '\\' :: 'P' :: rest => ' ' :: replacePara rest
  | c :: rest => c :: replacePara rest
  | [] => []

/-- Lines 92-93: remove format codes, replace paragraph codes, strip. -/
def cleanText (t : String) : String :=
  ⟨trimList (replacePara (subFormatCodes t.data))⟩

/-- A modelspace entity, reduced to the two fields the extractor reads:
`entity.dxftype()` and `entity.dxf.text`. -/
structure DxfEntity where
  dxftype : String
  text : String
deriving DecidableEq

/-- Model of `raw_labels` (lines 85-96): the cleaned text of every MTEXT entity, in
modelspace order, keeping only texts that are nonempty after cleaning. -/
def rawLabels (doc : List DxfEntity) : List String :=
  doc.filterMap (fun e =>
    if e.dxftype = "MTEXT" then
      let cleaned := cleanText e.text
      if cleaned = "" then none else some cleaned
    else none)

/-- Whether the first list is an initial segment of the second. -/
def startsWithSeq : List Char → List Char → Bool
  | [], _ => true
  | _ :: _, [] => false
  | a :: as, b :: bs => a = b && startsWithSeq as bs

/-- Python substring containment `needle in haystack`. -/
def containsSeq (needle : List Char) : List Char → Bool
  | [] => startsWithSeq needle []
  | c :: rest => startsWithSeq needle (c :: rest) || containsSeq needle rest

/-- Core of `^[A-Za-z][0-9]+$` (line 48): one ASCII letter then one or more
digits, to the end. -/
def matchLetterDigits : List Char → Bool
  | c :: rest => c.isAlpha && !rest.isEmpty && rest.all (fun d => d.isDigit)
  | [] => false

/-- Core of `^[A-Za-z][0-9]+\.[0-9]+$` (line 54): a letter, digits, a dot,
digits, to the end.  The digit runs are maximal, so greedy matching is exact. -/
def matchLetterDotDigits : List Char → Bool
  | c :: rest =>
    c.isAlpha &&
      (let ds := rest.takeWhile (fun d => d.isDigit)
       !ds.isEmpty &&
         (match rest.drop ds.length with
          | '.' :: ds2 => !ds2.isEmpty && ds2.all (fun d => d.isDigit)
          | _ => false))
  | [] => false

/-- Core of `^[A-Za-z]+[\+\-]$` (line 60): letters then one `+` or `-`, to the
end.  The letter run is maximal, so greedy matching is exact. -/
def matchAlphaPlusMinus (l : List Char) : Bool :=
  let as := l.takeWhile (fun c => c.isAlpha)
  !as.isEmpty && (l.drop as.length = ['+'] || l.drop as.length = ['-'])

/-- Python `re.match` with a `$`-anchored pattern: the pattern must reach the
end of the string, or the position just before a final newline. -/
def reMatchDollar (core : List Char → Bool) (l : List Char) : Bool :=
  core l ||
    (match l.getLast? with
     | some c => c = '\n' && core l.dropLast
     | none => false)

/-- Model of `is_non_part_number` (extract_labels.py line 7); the early-return chain is
a disjunction in source order.  The `debug` flag only prints and is omitted. -/
def is_non_part_number (label : String) : Bool :=
  match label.data with
  | [] => true
  | c :: rest =>
    c = '(' ||
    c.isDigit ||
    c.isLower ||
    containsSeq ('G' :: 'N' :: 'D' :: []) (c :: rest) ||
    ((c :: rest).length = 1 && (c :: rest).all (fun x => x.isAlpha)) ||
    reMatchDollar matchLetterDigits (c :: rest) ||
    reMatchDollar matchLetterDotDigits (c :: rest) ||
    reMatchDollar matchAlphaPlusMinus (c :: rest)

/-- The claim's pattern rules, stated from the claim's own words: a label is a
non-part-number exactly when it is empty, starts with `(`, starts with a
digit, starts with a lowercase letter, contains `GND`, is a single alphabetic
character, is one letter followed only by digits, is one letter followed by
digits, a dot, and digits, or is letters followed by a single `+` or `-`. -/
def claimedNonPart (label : String) : Bool :=
  match label.data with
  | [] => true
  | c :: rest =>
    c = '(' ||
    c.isDigit ||
    c.isLower ||
    containsSeq ('G' :: 'N' :: 'D' :: []) (c :: rest) ||
    (rest.isEmpty && c.isAlpha) ||
    matchLetterDigits (c :: rest) ||
    matchLetterDotDigits (c :: rest) ||
    matchAlphaPlusMinus (c :: rest)

/-- The label list before sorting (lines 98-110): either every raw label, or
only those not classified as non-part-numbers, in original order. -/
def candidateLabels (doc : List DxfEntity) (filter_non_parts : Bool) : List String :=
  if filter_non_parts then
    (rawLabels doc).filter (fun l => !(is_non_part_number l))
  else
    rawLabels doc

/-- Lines 112-116: sort ascending for `'asc'`, descending for `'desc'`,
otherwise keep the order. -/
def sortLabels (labels : List String) (sort_order : String) : List String :=
  if sort_order = "asc" then pySortAsc labels
  else if sort_order = "desc" then pySortDesc labels
  else labels

/-- The `info` dictionary of `extract_labels` (lines 118-123). -/
structure ExtractInfo where
  total_extracted : Nat
  filtered_count : Nat
  final_count : Nat
deriving DecidableEq

/-- Model of `extract_labels` (extract_labels.py line 68), taking the already loaded
modelspace entity list in place of the file path. -/
def extract_labels (doc : List DxfEntity) (filter_non_parts : Bool)
    (sort_order : String) : List String × ExtractInfo :=
  let raw_labels := rawLabels doc
  let filtered_count :=
    if filter_non_parts then raw_labels.countP (fun l => is_non_part_number l) else 0
  let labels := sortLabels (candidateLabels doc filter_non_parts) sort_order
  (labels, ⟨raw_labels.length, filtered_count, labels.length⟩)

/-! ### Spec-level model of the geometric comparison entry point -/

/-- Modelled from the spec: a floating-point tolerance value, which is either a
finite number (represented exactly by a rational) or one of the non-finite
IEEE values.  The implementation file `utils/compare_dxf.py` named by the spec
is not under `src/`; only its caller `app.py` is. -/
inductive FloatVal where
  | finite (q : ℚ)
  | nan
  | posInf
  | negInf
deriving DecidableEq

/-- Modelled from the spec (section 7): the error taxonomy of the comparison
core. -/
inductive CompareError where
  | formatError (msg : String)
  | unsupportedVersionError (msg : String)
  | toleranceError (msg : String)
  | writeError (msg : String)
  | internalInvariantError (msg : String)
deriving DecidableEq

/-- Modelled from the spec (section 3): counts of unchanged, removed and added
entities. -/
structure DiffSummary where
  unchanged : Nat
  removed : Nat
  added : Nat
deriving DecidableEq

/-- Modelled from the spec (sections 6 and 7): the entry point
`compare(pathA, pathB, outputPath, tolerance) -> Result<DiffSummary, Error>`
of the geometric difference engine, whose implementation
(`utils/compare_dxf.py`) is absent from `src/`.  The tolerance guard is
modelled explicitly: a tolerance that is non-finite or at most zero fails with
`ToleranceError`; the remainder of the pipeline is an abstract parameter
invoked only with a validated positive finite tolerance. -/
def compare (pathA pathB outputPath : String) (tolerance : FloatVal)
    (pipeline : String → String → String → ℚ → Except CompareError DiffSummary) :
    Except CompareError DiffSummary :=
  match tolerance with
  | .finite q =>
    if q ≤ 0 then .error (.toleranceError "tolerance must be positive")
    else pipeline pathA pathB outputPath q
  | _ => .error (.toleranceError "tolerance must be finite")

/-- Modelled from the spec: a tolerance is invalid when it is non-finite or at
most zero. -/
def badTolerance : FloatVal → Prop
  | .finite q => q ≤ 0
  | _ => True

instance : DecidablePred badTolerance := fun t => by
  cases t <;> simp only [badTolerance] <;> infer_instance

/-! ### Helper lemmas on the string model -/

theorem dropWhile_head?_not {p : Char → Bool} :
    ∀ {l : List Char} {c : Char}, (l.dropWhile p).head? = some c → p c = false := by
  intro l
  induction l with
  | nil => intro c h; simp [List.dropWhile] at h
  | cons a rest ih =>
    intro c h
    rw [List.dropWhile_cons] at h
    cases hpa : p a with
    | true => rw [hpa] at h; simp only [if_true] at h; exact ih h
    | false =>
      rw [hpa] at h
      simp only [Bool.false_eq_true, if_false, List.head?_cons, Option.some.injEq] at h
      rw [← h]; exact hpa

theorem dropWhile_eq_self_of_head? {p : Char → Bool} {l : List Char}
    (h : ∀ c, l.head? = some c → p c = false) : l.dropWhile p = l := by
  cases l with
  | nil => rfl
  | cons a rest =>
    have := h a rfl
    simp [List.dropWhile_cons, this]

theorem trimRightList_head? :
    ∀ {l : List Char} {c : Char}, (trimRightList l).head? = some c → l.head? = some c := by
  intro l
  induction l with
  | nil => intro c h; simp [trimRightList] at h
  | cons a rest ih =>
    intro c h
    rw [trimRightList] at h
    cases hr : trimRightList rest with
    | nil =>
      rw [hr] at h
      cases hpa : isPySpace a with
      | true => rw [hpa] at h; simp at h
      | false =>
        rw [hpa] at h
        simp only [Bool.false_eq_true, if_false, List.head?_cons, Option.some.injEq] at h
        simpa using h
    | cons b t =>
      rw [hr] at h
      simp only [List.head?_cons, Option.some.injEq] at h
      simpa using h

theorem trimRightList_getLast?_not_space :
    ∀ {l : List Char} {c : Char}, (trimRightList l).getLast? = some c → isPySpace c = false := by
  intro l
  induction l with
  | nil => intro c h; simp [trimRightList] at h
  | cons a rest ih =>
    intro c h
    rw [trimRightList] at h
    cases hr : trimRightList rest with
    | nil =>
      rw [hr] at h
      cases hpa : isPySpace a with
      | true => rw [hpa] at h; simp at h
      | false =>
        rw [hpa] at h
        simp only [Bool.false_eq_true, if_false] at h
        have : a = c := by simpa using h
        rw [← this]; exact hpa
    | cons b t =>
      rw [hr] at h
      rw [List.getLast?_cons_cons] at h
      exact ih (hr ▸ h)

theorem trimRightList_idem : ∀ l : List Char, trimRightList (trimRightList l) = trimRightList l := by
  intro l
  induction l with
  | nil => rfl
  | cons a rest ih =>
    rw [trimRightList]
    cases hr : trimRightList rest with
    | nil =>
      cases hpa : isPySpace a with
      | true => simp [hpa, trimRightList]
      | false => simp [hpa, trimRightList]
    | cons b t =>
      have hbt : trimRightList (b :: t) = b :: t := by
        rw [hr] at ih
        exact ih
      simp only
      rw [trimRightList, hbt]

theorem trimList_idem : ∀ l : List Char, trimList (trimList l) = trimList l := by
  intro l
  unfold trimList
  have h1 : (trimRightList (l.dropWhile isPySpace)).dropWhile isPySpace =
      trimRightList (l.dropWhile isPySpace) := by
    apply dropWhile_eq_self_of_head?
    intro c hc
    exact dropWhile_head?_not (trimRightList_head? hc)
  rw [h1, trimRightList_idem]

theorem trimList_getLast?_not_space {l : List Char} {c : Char}
    (h : (trimList l).getLast? = some c) : isPySpace c = false :=
  trimRightList_getLast?_not_space h

theorem pytrim_idem (s : String) : pytrim (pytrim s) = pytrim s := by
  show (⟨trimList (⟨trimList s.data⟩ : String).data⟩ : String) = ⟨trimList s.data⟩
  rw [show (⟨trimList s.data⟩ : String).data = trimList s.data from rfl, trimList_idem]

theorem pyUpper_ne_empty {s : String} (h : s ≠ "") : pyUpper s ≠ "" := by
  intro hc
  apply h
  have hd : s.data.map Char.toUpper = [] := by
    have : (pyUpper s).data = ("" : String).data := by rw [hc]
    exact this
  rw [List.map_eq_nil_iff] at hd
  apply String.ext
  rw [hd]

theorem normalize_label_pytrim (line : String) :
    normalize_label (pytrim line) = pyUpper (pytrim line) := by
  unfold normalize_label
  rw [pytrim_idem]

theorem read_labels_eq_map_filter (content : String) :
    read_labels_from_content content =
      ((linesOf content).filter (fun line => !(pytrim line == ""))).map
        (fun line => pyUpper (pytrim line)) := by
  unfold read_labels_from_content
  generalize linesOf content = L
  induction L with
  | nil => rfl
  | cons l rest ih =>
    by_cases h : pytrim l = ""
    · simp only [List.filterMap_cons, List.filter_cons, h, if_pos rfl, beq_self_eq_true,
        Bool.not_true, Bool.false_eq_true, if_false]
      exact ih
    · simp only [List.filterMap_cons, List.filter_cons, if_neg h]
      have hb : (pytrim l == "") = false := by simpa using h
      simp only [hb, Bool.not_false, if_true, List.map_cons]
      rw [ih, normalize_label_pytrim]

theorem read_labels_ne_empty {content x : String}
    (hx : x ∈ read_labels_from_content content) : x ≠ "" := by
  rw [read_labels_eq_map_filter] at hx
  obtain ⟨line, hline, rfl⟩ := List.mem_map.mp hx
  have hmem := List.of_mem_filter hline
  have hne : pytrim line ≠ "" := by simpa using hmem
  exact pyUpper_ne_empty hne

theorem mem_rawLabels {doc : List DxfEntity} {x : String} (hx : x ∈ rawLabels doc) :
    x ≠ "" ∧ ∃ e ∈ doc, e.dxftype = "MTEXT" ∧ x = cleanText e.text := by
  unfold rawLabels at hx
  obtain ⟨e, he, hfe⟩ := List.mem_filterMap.mp hx
  by_cases ht : e.dxftype = "MTEXT"
  · rw [if_pos ht] at hfe
    by_cases hc : cleanText e.text = ""
    · simp [hc] at hfe
    · simp only [hc, if_false, if_neg, Option.some.injEq] at hfe
      have hxe : cleanText e.text = x := by simpa [hc] using hfe
      exact ⟨hxe ▸ hc, e, he, ht, hxe.symm⟩
  · rw [if_neg ht] at hfe
    cases hfe

theorem rawLabels_ne_empty {doc : List DxfEntity} {x : String} (hx : x ∈ rawLabels doc) :
    x ≠ "" :=
  (mem_rawLabels hx).1

theorem cleanText_getLast?_ne_newline (t : String) :
    (cleanText t).data.getLast? ≠ some '\n' := by
  intro hcon
  have hdata : (cleanText t).data = trimList (replacePara (subFormatCodes t.data)) := rfl
  rw [hdata] at hcon
  have := trimList_getLast?_not_space hcon
  simp [isPySpace] at this

theorem rawLabels_getLast?_ne_newline {doc : List DxfEntity} {x : String}
    (hx : x ∈ rawLabels doc) : x.data.getLast? ≠ some '\n' := by
  obtain ⟨-, e, -, -, rfl⟩ := mem_rawLabels hx
  exact cleanText_getLast?_ne_newline e.text

theorem reMatchDollar_of_no_newline {core : List Char → Bool} {l : List Char}
    (h : l.getLast? ≠ some '\n') : reMatchDollar core l = core l := by
  unfold reMatchDollar
  cases hl : l.getLast? with
  | none => simp
  | some c =>
    have hc : c ≠ '\n' := fun hh => h (hh ▸ hl)
    simp [hc]

theorem is_non_part_eq_claimed {label : String} (h : label.data.getLast? ≠ some '\n') :
    is_non_part_number label = claimedNonPart label := by
  unfold is_non_part_number claimedNonPart
  cases hd : label.data with
  | nil => rfl
  | cons c rest =>
    have h' : (c :: rest).getLast? ≠ some '\n' := by rw [← hd]; exact h
    dsimp only
    rw [reMatchDollar_of_no_newline h', reMatchDollar_of_no_newline h',
      reMatchDollar_of_no_newline h']
    cases rest with
    | nil => simp
    | cons b t => simp [List.length_cons]

theorem countP_not_add (p : String → Bool) (l : List String) :
    l.countP p + l.countP (fun a => !(p a)) = l.length := by
  induction l with
  | nil => rfl
  | cons a t ih =>
    simp only [List.countP_cons, List.length_cons]
    cases hpa : p a <;> simp [hpa] <;> omega

theorem sortLabels_perm (labels : List String) (s : String) :
    List.Perm (sortLabels labels s) labels := by
  unfold sortLabels
  split_ifs with h1 h2
  · exact List.perm_insertionSort _ _
  · exact List.perm_insertionSort _ _
  · exact List.Perm.refl _

theorem sortLabels_length (labels : List String) (s : String) :
    (sortLabels labels s).length = labels.length :=
  (sortLabels_perm labels s).length_eq

theorem candidateLabels_sublist (doc : List DxfEntity) (f : Bool) :
    (candidateLabels doc f).Sublist (rawLabels doc) := by
  unfold candidateLabels
  cases f with
  | true => simp only [if_pos]; exact List.filter_sublist _
  | false => simp only [Bool.false_eq_true, if_false]; exact List.Sublist.refl _

theorem mem_candidateLabels {doc : List DxfEntity} {f : Bool} {x : String}
    (hx : x ∈ candidateLabels doc f) : x ∈ rawLabels doc :=
  (candidateLabels_sublist doc f).mem hx

theorem extract_labels_fst (doc : List DxfEntity) (f : Bool) (s : String) :
    (extract_labels doc f s).1 = sortLabels (candidateLabels doc f) s := rfl

theorem mem_extract_labels {doc : List DxfEntity} {f : Bool} {s x : String}
    (hx : x ∈ (extract_labels doc f s).1) : x ∈ rawLabels doc := by
  rw [extract_labels_fst] at hx
  exact mem_candidateLabels ((sortLabels_perm _ _).mem_iff.mp hx)

theorem coe_missing_in_circuit_expanded (a b : String) :
    (↑(missing_in_circuit_expanded a b) : Multiset String) = missing_in_circuit a b :=
  (Multiset.coe_sub _ _).symm

theorem coe_missing_in_dxf_expanded (a b : String) :
    (↑(missing_in_dxf_expanded a b) : Multiset String) = missing_in_dxf a b :=
  (Multiset.coe_sub _ _).symm

theorem coe_missing_in_circuit_sorted (a b : String) :
    (↑(missing_in_circuit_sorted a b) : Multiset String) = missing_in_circuit a b := by
  unfold missing_in_circuit_sorted pySortAsc
  rw [Multiset.coe_eq_coe.mpr (List.perm_insertionSort pyStrLe _)]
  exact coe_missing_in_circuit_expanded a b

theorem coe_missing_in_dxf_sorted (a b : String) :
    (↑(missing_in_dxf_sorted a b) : Multiset String) = missing_in_dxf a b := by
  unfold missing_in_dxf_sorted pySortAsc
  rw [Multiset.coe_eq_coe.mpr (List.perm_insertionSort pyStrLe _)]
  exact coe_missing_in_dxf_expanded a b

theorem pyJoin_cons_data (sep a : String) (rest : List String) :
    ∃ t, (pyJoin sep (a :: rest)).data = a.data ++ t := by
  cases rest with
  | nil => exact ⟨[], (List.append_nil _).symm⟩
  | cons b r =>
    refine ⟨sep.data ++ (pyJoin sep (b :: r)).data, ?_⟩
    show (a ++ sep ++ pyJoin sep (b :: r)).data = _
    rw [String.data_append, String.data_append, List.append_assoc]

theorem pyJoin_cons_ne_empty (sep a : String) (rest : List String) (ha : a ≠ "") :
    pyJoin sep (a :: rest) ≠ "" := by
  obtain ⟨t, ht⟩ := pyJoin_cons_data sep a rest
  intro hc
  rw [hc] at ht
  have hnil : ([] : List Char) = a.data ++ t := ht
  cases hd : a.data with
  | nil => exact ha (String.ext hd)
  | cons c cs =>
    rw [hd] at hnil
    exact absurd hnil.symm (by simp)

theorem renderOutput_ne_empty (info : CompareInfo) (mdx mcl : List String) :
    renderOutput info mdx mcl ≠ "" := by
  intro hc
  unfold renderOutput at hc
  simp only [List.cons_append] at hc
  exact pyJoin_cons_ne_empty _ _ _ (by decide) hc

theorem sortLabels_none (labels : List String) : sortLabels labels "none" = labels := by
  unfold sortLabels
  rw [if_neg (by decide), if_neg (by decide)]

theorem sortLabels_asc (labels : List String) : sortLabels labels "asc" = pySortAsc labels := by
  unfold sortLabels
  rw [if_pos rfl]

theorem sortLabels_desc (labels : List String) : sortLabels labels "desc" = pySortDesc labels := by
  unfold sortLabels
  rw [if_neg (by decide), if_pos rfl]

/-! ### The claims -/

/-- C1: `compare_parts_list` compares labels by case-normalized trimmed string
equality with multiplicity: the labels read from either content are exactly
the non-blank lines mapped to their trimmed, upper-cased forms (so two lines
denote the same label exactly when those forms coincide), and a label with
multiplicity `m` on one side and `n < m` on the other occurs exactly `m - n`
times in that side's difference multiset. -/
theorem C1_multiset_label_comparison (a b x : String) :
    (read_labels_from_content a =
      ((linesOf a).filter (fun line => !(pytrim line == ""))).map
        (fun line => pyUpper (pytrim line))) ∧
    ((read_labels_from_content a).count x > (read_labels_from_content b).count x →
      Multiset.count x (missing_in_circuit a b) =
        (read_labels_from_content a).count x - (read_labels_from_content b).count x) ∧
    ((read_labels_from_content b).count x > (read_labels_from_content a).count x →
      Multiset.count x (missing_in_dxf a b) =
        (read_labels_from_content b).count x - (read_labels_from_content a).count x) := by
  refine ⟨read_labels_eq_map_filter a, fun _ => ?_, fun _ => ?_⟩
  · unfold missing_in_circuit counterOf
    rw [Multiset.count_sub, Multiset.coe_count, Multiset.coe_count]
  · unfold missing_in_dxf counterOf
    rw [Multiset.count_sub, Multiset.coe_count, Multiset.coe_count]

theorem C1_multiset_label_comparison_witness :
    (read_labels_from_content " p \np").count "P" > (read_labels_from_content "P").count "P" ∧
    Multiset.count "P" (missing_in_circuit " p \np" "P") =
      (read_labels_from_content " p \np").count "P" - (read_labels_from_content "P").count "P" :=
  ⟨by decide, (C1_multiset_label_comparison " p \np" "P" "P").2.1 (by decide)⟩

/-- C2 counterexample: on an input whose UTF-8 decoding raises,
`compare_parts_list` returns the empty string as its difference report — the
internal exception is converted into an empty result (with the message only in
`info.error`, not a typed error), contradicting the claim that no error is
downgraded to an empty result. -/
theorem C2_counterexample :
    (compare_parts_list (.badBytes "invalid continuation byte") (.str "R1")).2.error ≠ none ∧
    (compare_parts_list (.badBytes "invalid continuation byte") (.str "R1")).1 = "" := by
  exact ⟨by decide, rfl⟩

/-- C2 (amended): on a failing comparison `compare_parts_list` catches the
exception and returns the empty markdown string, recording the exception
message (a plain string, not a typed error) in the `error` field of the info
dictionary; the `error` field is `none` exactly when both inputs decode, and
only then is the markdown report non-empty. -/
theorem C2_error_reported_in_info (a b : Content) :
    ((compare_parts_list a b).2.error = none ↔
      (∃ sa, a = .str sa) ∧ (∃ sb, b = .str sb)) ∧
    ((compare_parts_list a b).2.error ≠ none → (compare_parts_list a b).1 = "") ∧
    ((compare_parts_list a b).2.error = none → (compare_parts_list a b).1 ≠ "") := by
  cases a with
  | badBytes e =>
    refine ⟨?_, fun _ => rfl, ?_⟩
    · simp [compare_parts_list]
    · intro h
      simp [compare_parts_list] at h
  | str sa =>
    cases b with
    | badBytes e =>
      refine ⟨?_, fun _ => rfl, ?_⟩
      · simp [compare_parts_list]
      · intro h
        simp [compare_parts_list] at h
    | str sb =>
      refine ⟨?_, ?_, fun _ => ?_⟩
      · simp [compare_parts_list]
      · intro h
        exact absurd rfl h
      · exact renderOutput_ne_empty _ _ _

theorem C2_error_reported_in_info_witness :
    (compare_parts_list (.str "A") (.str "B")).2.error = none ∧
    (compare_parts_list (.str "A") (.str "B")).1 ≠ "" :=
  ⟨rfl, (C2_error_reported_in_info (.str "A") (.str "B")).2.2 rfl⟩

/-- C3 counterexample: the value returned by `compare_parts_list` does not
carry the collection of common labels — two input pairs with different common
collections produce identical return values, so no component of the returned
value is that collection. -/
theorem C3_counterexample :
    compare_parts_list (.str "X") (.str "X") = compare_parts_list (.str "Y") (.str "Y") ∧
    common_labels "X" "X" ≠ common_labels "Y" "Y" :=
  ⟨by decide, by decide⟩

/-- C3 (amended): the comparator returns a markdown report and an info
dictionary rather than a triple of collections: the report embeds the two
expanded difference collections (sorted), whose multisets are exactly
only-in-B (`missing_in_dxf`) and only-in-A (`missing_in_circuit`), the info
dictionary reports their cardinalities, and of the common labels only the
count — not the collection — is returned. -/
theorem C3_return_value_components (a b : String) :
    ((compare_parts_list (.str a) (.str b)).1 =
      renderOutput (compare_parts_list (.str a) (.str b)).2
        (missing_in_dxf_sorted a b) (missing_in_circuit_sorted a b)) ∧
    (↑(missing_in_circuit_sorted a b) : Multiset String) = missing_in_circuit a b ∧
    (↑(missing_in_dxf_sorted a b) : Multiset String) = missing_in_dxf a b ∧
    (compare_parts_list (.str a) (.str b)).2.missing_in_circuit =
      Multiset.card (missing_in_circuit a b) ∧
    (compare_parts_list (.str a) (.str b)).2.missing_in_dxf =
      Multiset.card (missing_in_dxf a b) ∧
    (compare_parts_list (.str a) (.str b)).2.common_count = (common_labels a b).card := by
  refine ⟨rfl, coe_missing_in_circuit_sorted a b, coe_missing_in_dxf_sorted a b, ?_, ?_, rfl⟩
  · show (missing_in_circuit_sorted a b).length = _
    rw [← coe_missing_in_circuit_sorted a b, Multiset.coe_card]
  · show (missing_in_dxf_sorted a b).length = _
    rw [← coe_missing_in_dxf_sorted a b, Multiset.coe_card]

/-- C4: comparing any content with itself yields empty differences: both
difference multisets are zero, both expanded lists are empty, and both
reported counts are 0. -/
theorem C4_self_comparison_empty (x : String) :
    missing_in_dxf x x = 0 ∧ missing_in_circuit x x = 0 ∧
    missing_in_dxf_sorted x x = [] ∧ missing_in_circuit_sorted x x = [] ∧
    (compare_parts_list (.str x) (.str x)).2.missing_in_dxf = 0 ∧
    (compare_parts_list (.str x) (.str x)).2.missing_in_circuit = 0 := by
  have hm : missing_in_dxf x x = 0 := tsub_self _
  have hm' : missing_in_circuit x x = 0 := tsub_self _
  have hs : missing_in_dxf_sorted x x = [] := by
    have := coe_missing_in_dxf_sorted x x
    rw [hm] at this
    exact (Multiset.coe_eq_zero _).mp this
  have hs' : missing_in_circuit_sorted x x = [] := by
    have := coe_missing_in_circuit_sorted x x
    rw [hm'] at this
    exact (Multiset.coe_eq_zero _).mp this
  refine ⟨hm, hm', hs, hs', ?_, ?_⟩
  · show (missing_in_dxf_sorted x x).length = 0
    rw [hs]; rfl
  · show (missing_in_circuit_sorted x x).length = 0
    rw [hs']; rfl

/-- C5: swapping the two inputs swaps the two difference classifications and
leaves the common count identical, both at the multiset level and in the
returned info dictionaries. -/
theorem C5_swap_symmetry (x y : String) :
    missing_in_dxf x y = missing_in_circuit y x ∧
    missing_in_circuit x y = missing_in_dxf y x ∧
    (compare_parts_list (.str x) (.str y)).2.missing_in_dxf =
      (compare_parts_list (.str y) (.str x)).2.missing_in_circuit ∧
    (compare_parts_list (.str x) (.str y)).2.missing_in_circuit =
      (compare_parts_list (.str y) (.str x)).2.missing_in_dxf ∧
    (compare_parts_list (.str x) (.str y)).2.common_count =
      (compare_parts_list (.str y) (.str x)).2.common_count := by
  refine ⟨rfl, rfl, rfl, rfl, ?_⟩
  show (common_labels x y).card = (common_labels y x).card
  unfold common_labels
  rw [Finset.inter_comm]

/-- C6: empty text never appears in results: every raw label survives only if
nonempty after cleaning, every label returned by `extract_labels` is
non-empty, and every label read by `read_labels_from_content` comes from a
line that is non-blank after trimming and is itself non-empty. -/
theorem C6_no_empty_labels (doc : List DxfEntity) (f : Bool) (s content : String) :
    (∀ x ∈ rawLabels doc, x ≠ "") ∧
    (∀ x ∈ (extract_labels doc f s).1, x ≠ "") ∧
    (∀ x ∈ read_labels_from_content content, x ≠ "") :=
  ⟨fun _ hx => rawLabels_ne_empty hx,
   fun _ hx => rawLabels_ne_empty (mem_extract_labels hx),
   fun _ hx => read_labels_ne_empty hx⟩

theorem C6_no_empty_labels_witness :
    "A" ∈ rawLabels [⟨"MTEXT", " A "⟩, ⟨"MTEXT", "  "⟩] ∧ "A" ≠ "" :=
  ⟨by decide,
   (C6_no_empty_labels [⟨"MTEXT", " A "⟩, ⟨"MTEXT", "  "⟩] false "none" "").1 "A" (by decide)⟩

/-- C7: `extract_labels` returns an ordered list of non-empty strings: in
document order (a sublist of the raw labels, and all of them when no
filtering) for `'none'`, in ascending lexicographic order for `'asc'`, and in
descending lexicographic order for `'desc'`, the sorted outputs being
permutations of the unsorted one. -/
theorem C7_ordered_label_sequence (doc : List DxfEntity) (f : Bool) (s : String) :
    (∀ x ∈ (extract_labels doc f s).1, x ≠ "") ∧
    (extract_labels doc f "none").1.Sublist (rawLabels doc) ∧
    (f = false → (extract_labels doc f "none").1 = rawLabels doc) ∧
    List.Sorted pyStrLe (extract_labels doc f "asc").1 ∧
    List.Perm (extract_labels doc f "asc").1 (extract_labels doc f "none").1 ∧
    List.Sorted pyStrGe (extract_labels doc f "desc").1 ∧
    List.Perm (extract_labels doc f "desc").1 (extract_labels doc f "none").1 := by
  have hnone : (extract_labels doc f "none").1 = candidateLabels doc f := by
    rw [extract_labels_fst, sortLabels_none]
  have hasc : (extract_labels doc f "asc").1 = pySortAsc (candidateLabels doc f) := by
    rw [extract_labels_fst, sortLabels_asc]
  have hdesc : (extract_labels doc f "desc").1 = pySortDesc (candidateLabels doc f) := by
    rw [extract_labels_fst, sortLabels_desc]
  refine ⟨fun _ hx => rawLabels_ne_empty (mem_extract_labels hx), ?_, ?_, ?_, ?_, ?_, ?_⟩
  · rw [hnone]; exact candidateLabels_sublist doc f
  · intro hf
    rw [hnone, hf]
    unfold candidateLabels
    exact if_neg (by simp)
  · rw [hasc]; exact List.sorted_insertionSort pyStrLe _
  · rw [hasc, hnone]; exact List.perm_insertionSort pyStrLe _
  · rw [hdesc]; exact List.sorted_insertionSort pyStrGe _
  · rw [hdesc, hnone]; exact List.perm_insertionSort pyStrGe _

theorem C7_ordered_label_sequence_witness :
    (extract_labels [⟨"MTEXT", "B"⟩, ⟨"MTEXT", "A"⟩] false "none").1 =
      rawLabels [⟨"MTEXT", "B"⟩, ⟨"MTEXT", "A"⟩] :=
  (C7_ordered_label_sequence [⟨"MTEXT", "B"⟩, ⟨"MTEXT", "A"⟩] false "none").2.2.1 rfl

/-- C8: the spec-modelled comparison entry point returns a result that is
either a `DiffSummary` or a typed `CompareError`, and fails with
`ToleranceError` whenever the tolerance is non-finite or at most zero,
regardless of the paths and of the downstream pipeline. -/
theorem C8_tolerance_error (pa pb op : String) (tol : FloatVal)
    (pipeline : String → String → String → ℚ → Except CompareError DiffSummary)
    (h : badTolerance tol) :
    ∃ msg, compare pa pb op tol pipeline = .error (.toleranceError msg) := by
  cases tol with
  | finite q =>
    refine ⟨"tolerance must be positive", ?_⟩
    have hb : q ≤ 0 := h
    simp only [compare]
    rw [if_pos hb]
  | nan => exact ⟨"tolerance must be finite", rfl⟩
  | posInf => exact ⟨"tolerance must be finite", rfl⟩
  | negInf => exact ⟨"tolerance must be finite", rfl⟩

theorem C8_tolerance_error_witness :
    badTolerance (.finite 0) ∧
    ∃ msg, compare "a.dxf" "b.dxf" "out.dxf" (.finite 0)
      (fun _ _ _ _ => .ok ⟨0, 0, 0⟩) = .error (.toleranceError msg) :=
  ⟨le_refl (0 : ℚ),
   C8_tolerance_error "a.dxf" "b.dxf" "out.dxf" (.finite 0)
     (fun _ _ _ _ => .ok ⟨0, 0, 0⟩) (le_refl (0 : ℚ))⟩

/-- C9: in the info dictionary of `extract_labels`,
`total_extracted = filtered_count + final_count` always holds, and with
filtering disabled `filtered_count` is 0 and `final_count` equals
`total_extracted`. -/
theorem C9_info_count_equation (doc : List DxfEntity) (f : Bool) (s : String) :
    ((extract_labels doc f s).2.total_extracted =
      (extract_labels doc f s).2.filtered_count + (extract_labels doc f s).2.final_count) ∧
    (f = false → (extract_labels doc f s).2.filtered_count = 0 ∧
      (extract_labels doc f s).2.final_count = (extract_labels doc f s).2.total_extracted) := by
  have hfin : (extract_labels doc f s).2.final_count = (candidateLabels doc f).length := by
    show (sortLabels (candidateLabels doc f) s).length = _
    exact sortLabels_length _ _
  have htot : (extract_labels doc f s).2.total_extracted = (rawLabels doc).length := rfl
  have hfc : (extract_labels doc f s).2.filtered_count =
      (if f then (rawLabels doc).countP (fun l => is_non_part_number l) else 0) := rfl
  constructor
  · rw [htot, hfin, hfc]
    cases f with
    | false => simp [candidateLabels]
    | true =>
      simp only [if_true, candidateLabels]
      rw [← List.countP_eq_length_filter]
      exact (countP_not_add (fun l => is_non_part_number l) (rawLabels doc)).symm
  · intro hf
    subst hf
    refine ⟨rfl, ?_⟩
    rw [hfin, htot]
    simp [candidateLabels]

theorem C9_info_count_equation_witness :
    (extract_labels [⟨"MTEXT", "R1"⟩, ⟨"MTEXT", "ABC"⟩] false "asc").2.filtered_count = 0 ∧
    (extract_labels [⟨"MTEXT", "R1"⟩, ⟨"MTEXT", "ABC"⟩] false "asc").2.final_count =
      (extract_labels [⟨"MTEXT", "R1"⟩, ⟨"MTEXT", "ABC"⟩] false "asc").2.total_extracted :=
  (C9_info_count_equation [⟨"MTEXT", "R1"⟩, ⟨"MTEXT", "ABC"⟩] false "asc").2 rfl

/-- C10: with `filter_non_parts` enabled, `extract_labels` keeps, in original
relative order, exactly the raw labels not matched by the claimed pattern
rules (`claimedNonPart`, stated from the claim's own words); the rules
coincide with `is_non_part_number` on every label the extractor produces. -/
theorem C10_filter_is_exactly_pattern_rules (doc : List DxfEntity) :
    (extract_labels doc true "none").1 =
      (rawLabels doc).filter (fun l => !(claimedNonPart l)) := by
  rw [extract_labels_fst, sortLabels_none]
  unfold candidateLabels
  rw [if_pos rfl]
  apply List.filter_congr
  intro x hx
  rw [is_non_part_eq_claimed (rawLabels_getLast?_ne_newline hx)]

end DxfTools
